import Mathlib

/-!
Verification of the `ksana` telemetry recorder.

Bytes are modelled as natural numbers (`< 256` where it matters); byte
streams are `List Nat`.  Multi-byte integers are written little-endian,
as `byteorder::LittleEndian` does in the source.  Machine integers are
modelled by their bit patterns: an `i32`/`u32` field is a `Nat` below
`2 ^ 32`, and signed comparisons go through `i32Val`, which reinterprets
the bit pattern as a two's-complement value.

The zlib compressor from the `flate2` crate is external to the
repository; the codec definitions are parametrised by a
`compress`/`decompress` pair, and theorems that need the compressor's
behaviour assume only the lossless round-trip the spec requires of it.
-/

namespace Ksana

/-- Little-endian bytes of a 32-bit value, as written by
`write_i32::<LittleEndian>` / `write_u32::<LittleEndian>`; values at or
above `2 ^ 32` are truncated exactly as Rust's `as u32` cast does. -/
def u32le (n : Nat) : List Nat :=
  [n % 256, n / 256 % 256, n / 65536 % 256, n / 16777216 % 256]

/-- Little-endian bytes of a 64-bit value, as written by
`write_u64::<LittleEndian>`. -/
def u64le (n : Nat) : List Nat :=
  [n % 256, n / 256 % 256, n / 65536 % 256, n / 16777216 % 256,
   n / 4294967296 % 256, n / 1099511627776 % 256,
   n / 281474976710656 % 256, n / 72057594037927936 % 256]

/-- Two's-complement reinterpretation of a 32-bit pattern, used wherever
the source compares or range-checks an `i32`. -/
def i32Val (n : Nat) : Int :=
  if n < 2 ^ 31 then (n : Int) else (n : Int) - 2 ^ 32

/-- Reinterpretation of an `i32` bit pattern as a 64-bit `usize`, as in
Rust's `as usize` cast (sign extension). -/
def i32AsUsize (n : Nat) : Nat :=
  if n < 2 ^ 31 then n else 2 ^ 64 - 2 ^ 32 + n

/-- Take exactly `n` bytes from the stream, as `read_exact` on an
in-memory reader does; fewer than `n` available is the
`UnexpectedEof` failure (`none`). -/
def readBytes (n : Nat) (bs : List Nat) : Option (List Nat × List Nat) :=
  if n ≤ bs.length then some (bs.take n, bs.drop n) else none

/-- Little-endian 32-bit read (`read_i32`/`read_u32` of `byteorder`),
returning the bit pattern and the remaining stream. -/
def readU32le (bs : List Nat) : Option (Nat × List Nat) :=
  match readBytes 4 bs with
  | none => none
  | some (b, rest) =>
    some (b.getD 0 0 + 256 * b.getD 1 0 + 65536 * b.getD 2 0 + 16777216 * b.getD 3 0, rest)

/-- Little-endian 64-bit read (`read_u64` of `byteorder`). -/
def readU64le (bs : List Nat) : Option (Nat × List Nat) :=
  match readBytes 8 bs with
  | none => none
  | some (b, rest) =>
    some (b.getD 0 0 + 256 * b.getD 1 0 + 65536 * b.getD 2 0 + 16777216 * b.getD 3 0
      + 4294967296 * b.getD 4 0 + 1099511627776 * b.getD 5 0
      + 281474976710656 * b.getD 6 0 + 72057594037927936 * b.getD 7 0, rest)

theorem readBytes_append (bs rest : List Nat) :
    readBytes bs.length (bs ++ rest) = some (bs, rest) := by
  simp [readBytes]

theorem readBytes_of_length_eq {n : Nat} {bs rest : List Nat} (h : bs.length = n) :
    readBytes n (bs ++ rest) = some (bs, rest) := by
  subst h; exact readBytes_append bs rest

theorem u32le_length (n : Nat) : (u32le n).length = 4 := by
  simp [u32le]

theorem u64le_length (n : Nat) : (u64le n).length = 8 := by
  simp [u64le]

theorem readU32le_u32le (n : Nat) (rest : List Nat) :
    readU32le (u32le n ++ rest) = some (n % 2 ^ 32, rest) := by
  have h : readBytes 4 (u32le n ++ rest) = some (u32le n, rest) :=
    readBytes_of_length_eq (u32le_length n)
  rw [readU32le, h]
  simp only [u32le, List.getD_cons_zero, List.getD_cons_succ,
    Option.some.injEq, Prod.mk.injEq, and_true]
  omega

theorem readU32le_u32le_of_lt {n : Nat} (hn : n < 2 ^ 32) (rest : List Nat) :
    readU32le (u32le n ++ rest) = some (n, rest) := by
  rw [readU32le_u32le, Nat.mod_eq_of_lt hn]

theorem readU64le_u64le (n : Nat) (rest : List Nat) :
    readU64le (u64le n ++ rest) = some (n % 2 ^ 64, rest) := by
  have h : readBytes 8 (u64le n ++ rest) = some (u64le n, rest) :=
    readBytes_of_length_eq (u64le_length n)
  rw [readU64le, h]
  simp only [u64le, List.getD_cons_zero, List.getD_cons_succ,
    Option.some.injEq, Prod.mk.injEq, and_true]
  omega

theorem readU64le_u64le_of_lt {n : Nat} (hn : n < 2 ^ 64) (rest : List Nat) :
    readU64le (u64le n ++ rest) = some (n, rest) := by
  rw [readU64le_u64le, Nat.mod_eq_of_lt hn]

/-! Container codec, from `src/io.rs`. -/

/-- Bytes of the magic constant `b"RECROCKS"`. -/
def MAGIC : List Nat := [82, 69, 67, 82, 79, 67, 75, 83]

/-- Reserved byte count of the container header: `72 - 8 - 4 - 4 - 4`. -/
def PADDING_SIZE : Nat := 52

/-- Current file version (`CURRENT_VERSION: i32 = 1`). -/
def CURRENT_VERSION : Nat := 1

/-- Known frame-record header size (`FRAME_HEADER_SIZE: i32 = 12`). -/
def FRAME_HEADER_SIZE : Nat := 12

/-- Error cases of `IOError` in `src/io.rs`.  The only I/O failure an
in-memory byte stream can produce is an unexpected end of input, so the
`Io(io::Error)` case is modelled by `ioUnexpectedEof`. -/
inductive IOError
  | unsupportedVersion (v : Int)
  | invalidHeaderSize (v : Int)
  | invalidMagic
  | decompressionFailed
  | ioUnexpectedEof
deriving DecidableEq, Repr

namespace Saver

/-- Bytes written by `Saver::new`: magic, version 1, fps, 4-byte id and
52 reserved zero bytes.  The sink is an in-memory byte list, so the
write cannot fail. -/
def new (fps : Nat) (id : List Nat) : List Nat :=
  MAGIC ++ u32le 1 ++ u32le fps ++ id ++ List.replicate PADDING_SIZE 0

/-- Bytes appended to the writer by one `Saver::save` call:
frame-header length 12, `compressed.len() as u32`, `data.len() as u32`
and the compressed payload, with the compressor passed in for the
`flate2` zlib encoder. -/
def save (compress : List Nat → List Nat) (writer : List Nat) (data : List Nat) :
    List Nat :=
  writer ++ u32le FRAME_HEADER_SIZE ++ u32le ((compress data).length % 2 ^ 32)
    ++ u32le (data.length % 2 ^ 32) ++ compress data

/-- `Saver::flush` forwards to the sink's flush; on an in-memory writer
every byte is already present, so it returns the writer unchanged. -/
def flush (writer : List Nat) : List Nat := writer

end Saver

/-- State of a `Loader`: the header fields plus the unread remainder of
the stream (`version`/`fps` are `i32` bit patterns, `id` the 4 raw
bytes). -/
structure Loader where
  version : Nat
  fps : Nat
  id : List Nat
  rest : List Nat
deriving DecidableEq, Repr

namespace Loader

/-- `Loader::new`: read and check the 8-byte magic, read the version and
reject it when it exceeds `CURRENT_VERSION` as a signed comparison, then
read fps, id and the 52 reserved bytes. -/
def new (stream : List Nat) : Except IOError Loader :=
  match readBytes 8 stream with
  | none => .error .ioUnexpectedEof
  | some (magic, r1) =>
    if magic ≠ MAGIC then .error .invalidMagic
    else
      match readU32le r1 with
      | none => .error .ioUnexpectedEof
      | some (version, r2) =>
        if i32Val version > i32Val CURRENT_VERSION then
          .error (.unsupportedVersion (i32Val version))
        else
          match readU32le r2 with
          | none => .error .ioUnexpectedEof
          | some (fps, r3) =>
            match readBytes 4 r3 with
            | none => .error .ioUnexpectedEof
            | some (id, r4) =>
              match readBytes PADDING_SIZE r4 with
              | none => .error .ioUnexpectedEof
              | some (_, r5) => .ok ⟨version, fps, id, r5⟩

/-- `Loader::load`: one frame record.  `read_exact` on an in-memory
reader consumes whatever remains when it hits an unexpected end of
input, so every failed read leaves an empty remainder.  An EOF on the
header-length or compressed-length read is the clean `Ok(None)` result;
an EOF anywhere later is an error.  The extra-header skip of
`header_size - 12` bytes runs only under the source's
`version == CURRENT_VERSION` guard.  The raw length is read but used
only as a capacity hint.  `decompress` stands for the `flate2` zlib
decoder, `none` marking the failure mapped to `DecompressionFailed`. -/
def load (decompress : List Nat → Option (List Nat)) (st : Loader) :
    Except IOError (Option (List Nat)) × Loader :=
  match readU32le st.rest with
  | none => (.ok none, ⟨st.version, st.fps, st.id, []⟩)
  | some (headerSize, r1) =>
    if i32Val headerSize < 12 then
      (.error (.invalidHeaderSize (i32Val headerSize)), ⟨st.version, st.fps, st.id, r1⟩)
    else
      match readU32le r1 with
      | none => (.ok none, ⟨st.version, st.fps, st.id, []⟩)
      | some (compressedLen, r2) =>
        match readU32le r2 with
        | none => (.error .ioUnexpectedEof, ⟨st.version, st.fps, st.id, []⟩)
        | some (_rawLen, r3) =>
          let nskip := if st.version = CURRENT_VERSION then (i32Val headerSize - 12).toNat else 0
          match readBytes nskip r3 with
          | none => (.error .ioUnexpectedEof, ⟨st.version, st.fps, st.id, []⟩)
          | some (_, r4) =>
            match readBytes compressedLen r4 with
            | none => (.error .ioUnexpectedEof, ⟨st.version, st.fps, st.id, []⟩)
            | some (compressed, r5) =>
              match decompress compressed with
              | none => (.error .decompressionFailed, ⟨st.version, st.fps, st.id, r5⟩)
              | some d => (.ok (some d), ⟨st.version, st.fps, st.id, r5⟩)

end Loader

theorem readBytes_nil_of_pos {n : Nat} (hn : 0 < n) : readBytes n ([] : List Nat) = none := by
  simp [readBytes, Nat.pos_iff_ne_zero.mp hn]

theorem readU32le_short {bs : List Nat} (h : bs.length < 4) : readU32le bs = none := by
  simp [readU32le, readBytes, Nat.not_le.mpr h]

/-- C7: the container header written by `Saver::new` is exactly 72 bytes
for every fps and every 4-byte id, laid out as the 8-byte magic, the
little-endian version 1, the little-endian fps, the id, and 52 zero
bytes. -/
theorem C7_header_72_bytes (fps : Nat) (id : List Nat) (hid : id.length = 4) :
    (Saver.new fps id).length = 72 ∧
      Saver.new fps id =
        MAGIC ++ u32le 1 ++ u32le fps ++ id ++ List.replicate 52 0 := by
  constructor
  · simp [Saver.new, MAGIC, PADDING_SIZE, u32le_length, hid]
  · rfl

/-- Witness for C7 at fps 5 and id `b"test"`. -/
theorem C7_header_72_bytes_witness :
    ([116, 101, 115, 116] : List Nat).length = 4 ∧
      (Saver.new 5 [116, 101, 115, 116]).length = 72 :=
  ⟨by decide, (C7_header_72_bytes 5 [116, 101, 115, 116] (by decide)).1⟩

/-- C4: `Loader::new` rejects any stream whose first 8 bytes are not the
magic with `InvalidMagic` (no frame is read: the failure occurs in
`new`), and rejects a correct-magic stream whose signed version field
exceeds the current version 1 with `UnsupportedVersion`. -/
theorem C4_new_rejections :
    (∀ s : List Nat, 8 ≤ s.length → s.take 8 ≠ MAGIC →
        Loader.new s = .error .invalidMagic) ∧
      (∀ (v : Nat) (rest : List Nat), v < 2 ^ 32 → 1 < i32Val v →
        Loader.new (MAGIC ++ u32le v ++ rest) =
          .error (.unsupportedVersion (i32Val v))) := by
  constructor
  · intro s hlen hmagic
    have h8 : readBytes 8 s = some (s.take 8, s.drop 8) := by
      simp [readBytes, hlen]
    simp [Loader.new, h8, hmagic]
  · intro v rest hv hgt
    have h8 : readBytes 8 (MAGIC ++ (u32le v ++ rest)) = some (MAGIC, u32le v ++ rest) :=
      readBytes_of_length_eq (by decide)
    have hv1 : i32Val CURRENT_VERSION < i32Val v := by
      simpa [CURRENT_VERSION, i32Val] using hgt
    simp [Loader.new, List.append_assoc, h8, readU32le_u32le_of_lt hv, hv1]

/-- Witness for C4: the 8-byte stream `b"BADMAGIC"` fails with
`InvalidMagic`, and a correct-magic stream with version 2 fails with
`UnsupportedVersion 2`. -/
theorem C4_new_rejections_witness :
    Loader.new [66, 65, 68, 77, 65, 71, 73, 67] = .error .invalidMagic ∧
      Loader.new (MAGIC ++ u32le 2 ++ []) = .error (.unsupportedVersion 2) :=
  ⟨C4_new_rejections.1 [66, 65, 68, 77, 65, 71, 73, 67] (by decide) (by decide),
    by
      have h := C4_new_rejections.2 2 [] (by decide) (by decide)
      simpa using h⟩

/-- C6: once the remaining input is empty — as it is after the last
frame of a saved stream has been read — `Loader::load` returns
`Ok(None)` and leaves the loader unchanged, so every further call
returns `Ok(None)` as well. -/
theorem C6_eof_idempotent (decompress : List Nat → Option (List Nat))
    (st : Loader) (h : st.rest = []) :
    Loader.load decompress st = (.ok none, st) := by
  obtain ⟨v, f, i, r⟩ := st
  simp only at h
  subst h
  simp [Loader.load, readU32le_short]

/-- Witness for C6 at a concrete drained loader. -/
theorem C6_eof_idempotent_witness :
    Loader.load (fun c => some c) ⟨1, 30, [105, 114, 97, 99], []⟩ =
      (.ok none, ⟨1, 30, [105, 114, 97, 99], []⟩) :=
  C6_eof_idempotent (fun c => some c) ⟨1, 30, [105, 114, 97, 99], []⟩ rfl

/-- C10: a stream that ends after the frame's header-length field but
inside the compressed-length field is reported as a clean end of stream
(`Ok(None)`); a stream that ends inside the raw-length field, or inside
the compressed payload, is reported as an I/O error. -/
theorem C10_truncated_header_eof (decompress : List Nat → Option (List Nat)) :
    (∀ (st : Loader) (h : Nat) (extra : List Nat),
        st.rest = u32le h ++ extra → h < 2 ^ 32 → 12 ≤ i32Val h →
        extra.length < 4 →
        (Loader.load decompress st).1 = .ok none) ∧
      (∀ (st : Loader) (h c : Nat) (extra : List Nat),
        st.rest = u32le h ++ u32le c ++ extra → h < 2 ^ 32 → 12 ≤ i32Val h →
        c < 2 ^ 32 → extra.length < 4 →
        (Loader.load decompress st).1 = .error .ioUnexpectedEof) ∧
      (∀ (st : Loader) (c r : Nat) (extra : List Nat),
        st.rest = u32le 12 ++ u32le c ++ u32le r ++ extra → c < 2 ^ 32 →
        extra.length < c →
        (Loader.load decompress st).1 = .error .ioUnexpectedEof) := by
  refine ⟨?_, ?_, ?_⟩
  · intro st h extra hrest hlt h12 hshort
    have hns : ¬ i32Val h < 12 := not_lt.mpr h12
    simp [Loader.load, hrest, readU32le_u32le_of_lt hlt, hns, readU32le_short hshort]
  · intro st h c extra hrest hlt h12 hc hshort
    have hns : ¬ i32Val h < 12 := not_lt.mpr h12
    simp [Loader.load, hrest, readU32le_u32le_of_lt hlt, hns,
      readU32le_u32le_of_lt hc, readU32le_short hshort]
  · intro st c r extra hrest hc hshort
    have h12 : ¬ i32Val 12 < 12 := by decide
    have hskip : readBytes (if st.version = CURRENT_VERSION then
        (i32Val 12 - 12).toNat else 0) extra = some ([], extra) := by
      have : (i32Val 12 - 12).toNat = 0 := by decide
      split <;> simp [this, readBytes]
    have hfail : readBytes c extra = none := by
      simp [readBytes, Nat.not_le.mpr hshort]
    simp [Loader.load, hrest, readU32le_u32le_of_lt (by decide : (12 : Nat) < 2 ^ 32),
      h12, readU32le_u32le_of_lt hc, readU32le_u32le, hskip, hfail]

/-- Witness for C10: truncation inside the compressed-length field gives
`Ok(None)`, truncation inside the raw-length field and a short
compressed payload give I/O errors. -/
theorem C10_truncated_header_eof_witness :
    (Loader.load (fun c => some c) ⟨1, 30, [0, 0, 0, 0], u32le 12 ++ [9, 9]⟩).1 = .ok none ∧
      (Loader.load (fun c => some c)
        ⟨1, 30, [0, 0, 0, 0], u32le 12 ++ u32le 3 ++ [9]⟩).1 = .error .ioUnexpectedEof ∧
      (Loader.load (fun c => some c)
        ⟨1, 30, [0, 0, 0, 0], u32le 12 ++ u32le 3 ++ u32le 3 ++ [9]⟩).1 =
        .error .ioUnexpectedEof :=
  ⟨(C10_truncated_header_eof (fun c => some c)).1 ⟨1, 30, [0, 0, 0, 0], u32le 12 ++ [9, 9]⟩
      12 [9, 9] rfl (by decide) (by decide) (by decide),
    (C10_truncated_header_eof (fun c => some c)).2.1 ⟨1, 30, [0, 0, 0, 0], u32le 12 ++ u32le 3 ++ [9]⟩
      12 3 [9] rfl (by decide) (by decide) (by decide) (by decide),
    (C10_truncated_header_eof (fun c => some c)).2.2 ⟨1, 30, [0, 0, 0, 0], u32le 12 ++ u32le 3 ++ u32le 3 ++ [9]⟩
      3 3 [9] rfl (by decide) (by decide)⟩

theorem readBytes_zero (bs : List Nat) : readBytes 0 bs = some ([], bs) := by
  simp [readBytes]

theorem readBytes_all (bs : List Nat) : readBytes bs.length bs = some (bs, []) := by
  simpa using readBytes_append bs []

/-- Parsing a header freshly written by `Saver::new` succeeds and leaves
exactly the bytes appended after it. -/
theorem loaderNew_saverNew (fps : Nat) (id tail : List Nat)
    (hfps : fps < 2 ^ 32) (hid : id.length = 4) :
    Loader.new (Saver.new fps id ++ tail) = .ok ⟨1, fps, id, tail⟩ := by
  have h8 : readBytes 8
      (MAGIC ++ (u32le 1 ++ (u32le fps ++ (id ++ (List.replicate PADDING_SIZE 0 ++ tail))))) =
      some (MAGIC, u32le 1 ++ (u32le fps ++ (id ++ (List.replicate PADDING_SIZE 0 ++ tail)))) :=
    readBytes_of_length_eq (by decide)
  have hid4 : readBytes 4 (id ++ (List.replicate PADDING_SIZE 0 ++ tail)) =
      some (id, List.replicate PADDING_SIZE 0 ++ tail) :=
    readBytes_of_length_eq hid
  have hpad : readBytes PADDING_SIZE (List.replicate PADDING_SIZE 0 ++ tail) =
      some (List.replicate PADDING_SIZE 0, tail) :=
    readBytes_of_length_eq (List.length_replicate _ _)
  have hver : ¬ i32Val 1 > i32Val CURRENT_VERSION := by decide
  simp [Saver.new, Loader.new, List.append_assoc, h8,
    readU32le_u32le_of_lt (by decide : (1 : Nat) < 2 ^ 32),
    readU32le_u32le_of_lt hfps, hver, hid4, hpad]

/-- Loading from a remainder that starts with a well-formed 12-byte
frame header followed by `body`: the loader hands the first `c` bytes of
`body` to the decompressor and leaves the rest. -/
theorem loaderLoad_frame (decompress : List Nat → Option (List Nat))
    (st : Loader) (c r : Nat) (body : List Nat)
    (hrest : st.rest = u32le 12 ++ u32le c ++ u32le r ++ body)
    (hc : c < 2 ^ 32) (hlen : c ≤ body.length) :
    Loader.load decompress st =
      (match decompress (body.take c) with
        | none => (.error .decompressionFailed, ⟨st.version, st.fps, st.id, body.drop c⟩)
        | some d => (.ok (some d), ⟨st.version, st.fps, st.id, body.drop c⟩)) := by
  have h12 : ¬ i32Val 12 < 12 := by decide
  have hskip : readBytes (if st.version = CURRENT_VERSION then
      (i32Val 12 - 12).toNat else 0) body = some ([], body) := by
    have h0 : (i32Val 12 - 12).toNat = 0 := by decide
    split <;> simp [h0, readBytes]
  have hbody : readBytes c body = some (body.take c, body.drop c) := by
    simp [readBytes, hlen]
  simp only [Loader.load, hrest, List.append_assoc,
    readU32le_u32le_of_lt (by decide : (12 : Nat) < 2 ^ 32),
    readU32le_u32le_of_lt hc, readU32le_u32le, h12, if_false, hskip, hbody]

/-- Modelled from the spec: the `flate2` zlib codec is an external
collaborator (`a general-purpose stream compressor`); its stored-block
behaviour on incompressible data is modelled as the identity, which
satisfies the spec's lossless round-trip requirement. -/
def storedCompress : List Nat → List Nat := fun d => d

/-- Modelled from the spec: decoder matching `storedCompress`; it never
fails, mirroring that a stored stream always inflates. -/
def storedDecompress : List Nat → Option (List Nat) := fun c => some c

/-- C1 (amended): for every compressor/decompressor pair that round-trips
losslessly and every payload whose compressed form fits the 32-bit
compressed-length field, `Saver::new` + `save` + `flush` followed by
`Loader::new` + `load` yields exactly `Some(p)` from the first `load`. -/
theorem C1_save_load_roundtrip
    (compress : List Nat → List Nat) (decompress : List Nat → Option (List Nat))
    (hround : ∀ d, decompress (compress d) = some d)
    (fps : Nat) (id p : List Nat)
    (hfps : fps < 2 ^ 32) (hid : id.length = 4)
    (hc : (compress p).length < 2 ^ 32) :
    Loader.new (Saver.flush (Saver.save compress (Saver.new fps id) p)) =
        .ok ⟨1, fps, id, Saver.save compress [] p⟩ ∧
      Loader.load decompress ⟨1, fps, id, Saver.save compress [] p⟩ =
        (.ok (some p), ⟨1, fps, id, []⟩) := by
  constructor
  · have : Saver.flush (Saver.save compress (Saver.new fps id) p) =
        Saver.new fps id ++ Saver.save compress [] p := by
      simp [Saver.flush, Saver.save, List.append_assoc]
    rw [this, loaderNew_saverNew fps id _ hfps hid]
  · have hmod : (compress p).length % 2 ^ 32 = (compress p).length :=
      Nat.mod_eq_of_lt hc
    have h := loaderLoad_frame decompress ⟨1, fps, id, Saver.save compress [] p⟩
      ((compress p).length % 2 ^ 32) (p.length % 2 ^ 32) (compress p)
      (by simp [Saver.save, FRAME_HEADER_SIZE, List.append_assoc]) (by rw [hmod]; exact hc)
      (by rw [hmod])
    rw [h, hmod, List.take_length, List.drop_length, hround p]

/-- Witness for C1 with the stored codec, payload `[1, 2, 3]`, fps 30
and id `b"irac"`. -/
theorem C1_save_load_roundtrip_witness :
    Loader.new (Saver.flush (Saver.save storedCompress (Saver.new 30 [105, 114, 97, 99]) [1, 2, 3])) =
        .ok ⟨1, 30, [105, 114, 97, 99], Saver.save storedCompress [] [1, 2, 3]⟩ ∧
      Loader.load storedDecompress ⟨1, 30, [105, 114, 97, 99], Saver.save storedCompress [] [1, 2, 3]⟩ =
        (.ok (some [1, 2, 3]), ⟨1, 30, [105, 114, 97, 99], []⟩) :=
  C1_save_load_roundtrip storedCompress storedDecompress (fun _ => rfl)
    30 [105, 114, 97, 99] [1, 2, 3] (by decide) (by decide) (by decide)

/-- Payload of `2 ^ 32` zero bytes: with a stored (incompressible-input)
codec its compressed form overflows the 32-bit compressed-length field. -/
def bigP : List Nat := List.replicate (2 ^ 32) 0

/-- Appending behaviour of `Saver::save`: the frame bytes are appended
to whatever the writer already holds. -/
theorem saver_save_append (compress : List Nat → List Nat) (w data : List Nat) :
    Saver.save compress w data = w ++ Saver.save compress [] data := by
  simp [Saver.save, List.append_assoc]

/-- Shape of a single saved frame. -/
theorem saver_save_nil (compress : List Nat → List Nat) (data : List Nat) :
    Saver.save compress [] data =
      u32le 12 ++ u32le ((compress data).length % 2 ^ 32)
        ++ u32le (data.length % 2 ^ 32) ++ compress data := by
  simp [Saver.save, FRAME_HEADER_SIZE, List.append_assoc]

/-- Counterexample to C1 as stated: with the stored codec model, saving
the `2 ^ 32`-byte payload `bigP` writes a truncated compressed-length of
0, so the first `load` returns `Some([])`, not `Some(bigP)`. -/
theorem C1_counterexample :
    Loader.new (Saver.flush (Saver.save storedCompress (Saver.new 30 [105, 114, 97, 99]) bigP)) =
        .ok ⟨1, 30, [105, 114, 97, 99], Saver.save storedCompress [] bigP⟩ ∧
      (Loader.load storedDecompress ⟨1, 30, [105, 114, 97, 99], Saver.save storedCompress [] bigP⟩).1 =
        .ok (some []) ∧
      ([] : List Nat) ≠ bigP := by
  have hlen : (storedCompress bigP).length = 2 ^ 32 := by
    show bigP.length = 2 ^ 32
    rw [bigP, List.length_replicate]
  have hmod : (storedCompress bigP).length % 2 ^ 32 = 0 := by
    rw [hlen, Nat.mod_self]
  refine ⟨?_, ?_, ?_⟩
  · rw [show Saver.flush (Saver.save storedCompress (Saver.new 30 [105, 114, 97, 99]) bigP) =
        Saver.new 30 [105, 114, 97, 99] ++ Saver.save storedCompress [] bigP from
        saver_save_append storedCompress _ bigP,
      loaderNew_saverNew 30 [105, 114, 97, 99] _ (by decide) (by decide)]
  · have h := loaderLoad_frame storedDecompress
      ⟨1, 30, [105, 114, 97, 99], Saver.save storedCompress [] bigP⟩
      ((storedCompress bigP).length % 2 ^ 32) (bigP.length % 2 ^ 32) (storedCompress bigP)
      (saver_save_nil storedCompress bigP)
      (by rw [hmod]; omega)
      (by rw [hmod]; exact Nat.zero_le _)
    rw [h, hmod, List.take_zero]
    rfl
  · intro heq
    have h0 : bigP.length = 2 ^ 32 := by rw [bigP, List.length_replicate]
    rw [← heq, List.length_nil] at h0
    exact absurd h0 (by omega)

/-- C5 at its failing input: a version-0 stream (accepted by
`Loader::new`) carrying one frame whose header length is 13.  Because
the skip of extra header bytes is guarded by
`version == CURRENT_VERSION`, the version-0 loader does not skip the
extra byte and parses the reserved byte 7 as the payload, while the same
frame in a version-1 stream correctly skips it and yields 9. -/
theorem C5_version_guard_eval :
    Loader.new (MAGIC ++ u32le 0 ++ u32le 30 ++ [0, 0, 0, 0] ++ List.replicate 52 0
        ++ u32le 13 ++ u32le 1 ++ u32le 1 ++ [7, 9]) =
      .ok ⟨0, 30, [0, 0, 0, 0], u32le 13 ++ u32le 1 ++ u32le 1 ++ [7, 9]⟩ ∧
    (Loader.load storedDecompress
        ⟨0, 30, [0, 0, 0, 0], u32le 13 ++ u32le 1 ++ u32le 1 ++ [7, 9]⟩).1 =
      .ok (some [7]) ∧
    (Loader.load storedDecompress
        ⟨1, 30, [0, 0, 0, 0], u32le 13 ++ u32le 1 ++ u32le 1 ++ [7, 9]⟩).1 =
      .ok (some [9]) := by
  refine ⟨rfl, rfl, rfl⟩

/-! Capture loop, from `src/commands/dump.rs`. -/

namespace Dump

/-- Termination reasons of `record`, from `RecordingFinished`. -/
inductive RecordingFinished
  | simDisconnected
  | quitRequested
deriving DecidableEq, Repr

/-- One pass of the `record` loop in `src/commands/dump.rs`, with the
no-data threshold `max_no_data = 20` inlined as in the source.  Each
loop iteration polls `connector.update()`; the finite list `polls`
fixes the outcome of each future poll, and its exhaustion models the
quit flag becoming set (the flag is read at the top of each iteration).
New data resets `no_data_count` to 0 and appends a saved frame to the
writer; an empty poll increments it and, past the threshold, ends the
recording with the normal `SimDisconnected` result.  Timing
(`Instant::now` and the sleeper) does not affect the returned value and
is omitted. -/
def record (compress : List Nat → List Nat) (polls : List (Option (List Nat)))
    (noDataCount : Nat) (writer : List Nat) : RecordingFinished × List Nat :=
  match polls with
  | [] => (.quitRequested, writer)
  | poll :: restPolls =>
    match poll with
    | some data => record compress restPolls 0 (Saver.save compress writer data)
    | none =>
      if noDataCount + 1 > 20 then (.simDisconnected, writer)
      else record compress restPolls (noDataCount + 1) writer

end Dump

/-- C9: with the threshold fixed at 20, 21 consecutive empty polls end
the recording with the normal `SimDisconnected` result (whatever would
have come afterwards), and a poll that returns data resets the no-data
counter to zero, whatever it was, so only consecutive empty polls count. -/
theorem C9_no_data_disconnect (compress : List Nat → List Nat) :
    (∀ (restPolls : List (Option (List Nat))) (w : List Nat),
        Dump.record compress (List.replicate 21 none ++ restPolls) 0 w =
          (.simDisconnected, w)) ∧
      (∀ (d : List Nat) (restPolls : List (Option (List Nat))) (n : Nat) (w : List Nat),
        Dump.record compress (some d :: restPolls) n w =
          Dump.record compress restPolls 0 (Saver.save compress w d)) := by
  constructor
  · intro restPolls w
    rfl
  · intro d restPolls n w
    rfl

/-! Variable-channel telemetry layout, from `src/sims/iracing/data.rs`.
The `#[repr(C)]` structs hold only `i32`, `u8` and fixed arrays, so they
have no interior padding and the raw-memory reinterpretation used by
`serialize`/`deserialize` is exactly the field-order little-endian
layout modelled here.  Fixed arrays of numbers are lists whose length is
pinned by the well-formedness predicate mirroring the Rust types. -/

namespace IRacing

/-- IRSDK_MAX_BUFS. -/
def IRSDK_MAX_BUFS : Nat := 4

/-- One buffer descriptor (`VarBuf`), `pad: [i32; 2]` split into its two
elements. -/
structure VarBuf where
  tickCount : Nat
  bufOffset : Nat
  pad0 : Nat
  pad1 : Nat
deriving DecidableEq, Repr

/-- Rust type invariant of `VarBuf`: each `i32` field is a 32-bit
pattern. -/
def VarBuf.Wf (b : VarBuf) : Prop :=
  b.tickCount < 2 ^ 32 ∧ b.bufOffset < 2 ^ 32 ∧ b.pad0 < 2 ^ 32 ∧ b.pad1 < 2 ^ 32

instance (b : VarBuf) : Decidable b.Wf := by
  unfold VarBuf.Wf; infer_instance

/-- Raw bytes of a `VarBuf` (16 bytes). -/
def serializeVarBuf (b : VarBuf) : List Nat :=
  u32le b.tickCount ++ u32le b.bufOffset ++ u32le b.pad0 ++ u32le b.pad1

/-- Read one `VarBuf` back from raw bytes. -/
def readVarBuf (bs : List Nat) : Option (VarBuf × List Nat) := do
  let (t, r1) ← readU32le bs
  let (o, r2) ← readU32le r1
  let (p0, r3) ← readU32le r2
  let (p1, r4) ← readU32le r3
  some (⟨t, o, p0, p1⟩, r4)

/-- One telemetry channel descriptor (`VarHeader`, 144 bytes): three
`i32` fields, a `u8`, 3 pad bytes and the 32/64/32-byte name, desc and
unit arrays. -/
structure VarHeader where
  varType : Nat
  offset : Nat
  count : Nat
  countAsTime : Nat
  pad : List Nat
  name : List Nat
  desc : List Nat
  unit : List Nat
deriving DecidableEq, Repr

/-- Rust type invariant of `VarHeader`: `i32` fields are 32-bit
patterns, the `u8` field and array elements are bytes, arrays have their
declared lengths. -/
def VarHeader.Wf (vh : VarHeader) : Prop :=
  vh.varType < 2 ^ 32 ∧ vh.offset < 2 ^ 32 ∧ vh.count < 2 ^ 32 ∧
    vh.countAsTime < 256 ∧
    vh.pad.length = 3 ∧ (∀ x ∈ vh.pad, x < 256) ∧
    vh.name.length = 32 ∧ (∀ x ∈ vh.name, x < 256) ∧
    vh.desc.length = 64 ∧ (∀ x ∈ vh.desc, x < 256) ∧
    vh.unit.length = 32 ∧ (∀ x ∈ vh.unit, x < 256)

instance (vh : VarHeader) : Decidable vh.Wf := by
  unfold VarHeader.Wf; infer_instance

/-- Raw bytes of a `VarHeader` (144 bytes). -/
def serializeVarHeader (vh : VarHeader) : List Nat :=
  u32le vh.varType ++ u32le vh.offset ++ u32le vh.count ++ [vh.countAsTime]
    ++ vh.pad ++ vh.name ++ vh.desc ++ vh.unit

/-- Read one `VarHeader` back from raw bytes. -/
def readVarHeader (bs : List Nat) : Option (VarHeader × List Nat) := do
  let (vt, r1) ← readU32le bs
  let (off, r2) ← readU32le r1
  let (cnt, r3) ← readU32le r2
  let (ctb, r4) ← readBytes 1 r3
  let (padb, r5) ← readBytes 3 r4
  let (nameb, r6) ← readBytes 32 r5
  let (descb, r7) ← readBytes 64 r6
  let (unitb, r8) ← readBytes 32 r7
  some (⟨vt, off, cnt, ctb.getD 0 0, padb, nameb, descb, unitb⟩, r8)

/-- The shared-memory header (`Header`, 112 bytes): twelve `i32` fields
(`pad1: [i32; 2]` split into its elements) and the fixed array of four
`VarBuf` descriptors. -/
structure Header where
  ver : Nat
  status : Nat
  tickRate : Nat
  sessionInfoUpdate : Nat
  sessionInfoLen : Nat
  sessionInfoOffset : Nat
  numVars : Nat
  varHeaderOffset : Nat
  numBuf : Nat
  bufLen : Nat
  pad1a : Nat
  pad1b : Nat
  varBuf : List VarBuf
deriving DecidableEq, Repr

/-- Rust type invariant of `Header`. -/
def Header.Wf (h : Header) : Prop :=
  h.ver < 2 ^ 32 ∧ h.status < 2 ^ 32 ∧ h.tickRate < 2 ^ 32 ∧
    h.sessionInfoUpdate < 2 ^ 32 ∧ h.sessionInfoLen < 2 ^ 32 ∧
    h.sessionInfoOffset < 2 ^ 32 ∧ h.numVars < 2 ^ 32 ∧
    h.varHeaderOffset < 2 ^ 32 ∧ h.numBuf < 2 ^ 32 ∧ h.bufLen < 2 ^ 32 ∧
    h.pad1a < 2 ^ 32 ∧ h.pad1b < 2 ^ 32 ∧
    h.varBuf.length = IRSDK_MAX_BUFS ∧ (∀ b ∈ h.varBuf, b.Wf)

instance (h : Header) : Decidable h.Wf := by
  unfold Header.Wf; infer_instance

/-- Raw bytes of the `Header` (112 bytes). -/
def serializeHeader (h : Header) : List Nat :=
  u32le h.ver ++ u32le h.status ++ u32le h.tickRate
    ++ u32le h.sessionInfoUpdate ++ u32le h.sessionInfoLen
    ++ u32le h.sessionInfoOffset ++ u32le h.numVars
    ++ u32le h.varHeaderOffset ++ u32le h.numBuf ++ u32le h.bufLen
    ++ u32le h.pad1a ++ u32le h.pad1b
    ++ (h.varBuf.map serializeVarBuf).flatten

/-- Read the twelve leading `i32` fields of the `Header`. -/
def readHeaderInts (bs : List Nat) : Option (List Nat × List Nat) := do
  let (ver, r1) ← readU32le bs
  let (status, r2) ← readU32le r1
  let (tickRate, r3) ← readU32le r2
  let (siu, r4) ← readU32le r3
  let (sil, r5) ← readU32le r4
  let (sio, r6) ← readU32le r5
  some ([ver, status, tickRate, siu, sil, sio], r6)

/-- Read the `Header` back from raw bytes: the twelve `i32` fields in
declaration order, then the four `VarBuf` descriptors. -/
def readHeader (bs : List Nat) : Option (Header × List Nat) := do
  let (g1, r6) ← readHeaderInts bs
  let (g2, r12) ← readHeaderInts r6
  let (b0, r13) ← readVarBuf r12
  let (b1, r14) ← readVarBuf r13
  let (b2, r15) ← readVarBuf r14
  let (b3, r16) ← readVarBuf r15
  some (⟨g1.getD 0 0, g1.getD 1 0, g1.getD 2 0, g1.getD 3 0, g1.getD 4 0, g1.getD 5 0,
    g2.getD 0 0, g2.getD 1 0, g2.getD 2 0, g2.getD 3 0, g2.getD 4 0, g2.getD 5 0,
    [b0, b1, b2, b3]⟩, r16)

theorem readVarBuf_serializeVarBuf {b : VarBuf} (hb : b.Wf) (rest : List Nat) :
    readVarBuf (serializeVarBuf b ++ rest) = some (b, rest) := by
  obtain ⟨t, o, p0, p1⟩ := b
  obtain ⟨h1, h2, h3, h4⟩ := hb
  simp [readVarBuf, serializeVarBuf, List.append_assoc,
    readU32le_u32le_of_lt h1, readU32le_u32le_of_lt h2,
    readU32le_u32le_of_lt h3, readU32le_u32le_of_lt h4]

theorem readVarHeader_serializeVarHeader {vh : VarHeader} (hvh : vh.Wf)
    (rest : List Nat) :
    readVarHeader (serializeVarHeader vh ++ rest) = some (vh, rest) := by
  obtain ⟨vt, off, cnt, cat, padb, nameb, descb, unitb⟩ := vh
  obtain ⟨h1, h2, h3, _h4, h5, _h6, h7, _h8, h9, _h10, h11, _h12⟩ := hvh
  simp only at h5 h7 h9 h11
  have hc : readBytes 1 (cat :: (padb ++ (nameb ++ (descb ++ (unitb ++ rest))))) =
      some ([cat], padb ++ (nameb ++ (descb ++ (unitb ++ rest)))) :=
    @readBytes_of_length_eq 1 [cat] _ rfl
  simp [readVarHeader, serializeVarHeader, List.append_assoc,
    readU32le_u32le_of_lt h1, readU32le_u32le_of_lt h2, readU32le_u32le_of_lt h3,
    hc, readBytes_of_length_eq h5, readBytes_of_length_eq h7,
    readBytes_of_length_eq h9, readBytes_of_length_eq h11]

theorem readHeaderInts_chunk {a b c d e f : Nat}
    (ha : a < 2 ^ 32) (hb : b < 2 ^ 32) (hc : c < 2 ^ 32)
    (hd : d < 2 ^ 32) (he : e < 2 ^ 32) (hf : f < 2 ^ 32) (rest : List Nat) :
    readHeaderInts (u32le a ++ (u32le b ++ (u32le c ++ (u32le d ++ (u32le e
        ++ (u32le f ++ rest)))))) =
      some ([a, b, c, d, e, f], rest) := by
  simp [readHeaderInts, List.append_assoc,
    readU32le_u32le_of_lt ha, readU32le_u32le_of_lt hb, readU32le_u32le_of_lt hc,
    readU32le_u32le_of_lt hd, readU32le_u32le_of_lt he, readU32le_u32le_of_lt hf]

theorem readHeader_serializeHeader {h : Header} (hw : h.Wf) (rest : List Nat) :
    readHeader (serializeHeader h ++ rest) = some (h, rest) := by
  obtain ⟨ver, status, tickRate, siu, sil, sio, numVars, vho, numBuf, bufLen,
    p1a, p1b, varBuf⟩ := h
  obtain ⟨h1, h2, h3, h4, h5, h6, h7, h8, h9, h10, h11, h12, hlen, hbufs⟩ := hw
  simp only [IRSDK_MAX_BUFS] at hlen
  rcases varBuf with _ | ⟨b0, _ | ⟨b1, _ | ⟨b2, _ | ⟨b3, _ | ⟨b4, t⟩⟩⟩⟩⟩ <;>
    simp only [List.length] at hlen <;> try omega
  have hb0 : b0.Wf := hbufs b0 (by simp)
  have hb1 : b1.Wf := hbufs b1 (by simp)
  have hb2 : b2.Wf := hbufs b2 (by simp)
  have hb3 : b3.Wf := hbufs b3 (by simp)
  simp [readHeader, serializeHeader, List.append_assoc,
    readHeaderInts_chunk h1 h2 h3 h4 h5 h6,
    readHeaderInts_chunk h7 h8 h9 h10 h11 h12,
    readVarBuf_serializeVarBuf hb0, readVarBuf_serializeVarBuf hb1,
    readVarBuf_serializeVarBuf hb2, readVarBuf_serializeVarBuf hb3]

/-- `Header::latest_buf_index`: a fold over `1..num_buf as usize`
keeping the index whose signed tick count is strictly larger than the
current best, starting from 0.  Rust's out-of-range index would panic;
the claims only evaluate it with `num_buf` at most `IRSDK_MAX_BUFS`,
where `getD` and indexing agree. -/
def Header.latest_buf_index (h : Header) : Nat :=
  (List.range' 1 (i32AsUsize h.numBuf - 1)).foldl
    (fun latest i =>
      if i32Val (h.varBuf.getD i ⟨0, 0, 0, 0⟩).tickCount >
          i32Val (h.varBuf.getD latest ⟨0, 0, 0, 0⟩).tickCount
      then i else latest) 0

/-- Signed tick count of buffer `i`, the value `latest_buf_index`
compares. -/
def Header.tickVal (h : Header) (i : Nat) : Int :=
  i32Val (h.varBuf.getD i ⟨0, 0, 0, 0⟩).tickCount

/-- Modelled from std: `String::from_utf8_lossy(bytes).to_string()`.
The session-info bytes handed to it are produced by `String::as_bytes`
on a Rust `String` and are therefore valid UTF-8, on which the lossy
conversion is the identity. -/
def fromUtf8Lossy (bs : List Nat) : List Nat := bs

/-- One captured snapshot (`FrameData`): header, channel descriptors,
optional session-info text (as its UTF-8 bytes) and the raw sample
buffer. -/
structure FrameData where
  header : Header
  varHeaders : List VarHeader
  sessionInfo : Option (List Nat)
  rawData : List Nat
deriving DecidableEq, Repr

/-- Rust type invariant of the optional session-info `String`: byte
contents, and a length that fits the `u64` written by `serialize`. -/
def sessionWf : Option (List Nat) → Prop
  | none => True
  | some info => info.length < 2 ^ 64 ∧ ∀ x ∈ info, x < 256

instance : (o : Option (List Nat)) → Decidable (sessionWf o)
  | none => .isTrue trivial
  | some info => by unfold sessionWf; infer_instance

/-- Rust type invariant of a `FrameData` value. -/
def FrameData.Wf (fd : FrameData) : Prop :=
  fd.header.Wf ∧ (∀ vh ∈ fd.varHeaders, vh.Wf) ∧ sessionWf fd.sessionInfo ∧
    fd.rawData.length < 2 ^ 64 ∧ (∀ x ∈ fd.rawData, x < 256)

instance (fd : FrameData) : Decidable fd.Wf := by
  unfold FrameData.Wf; infer_instance

/-- `FrameData::serialize`: raw header bytes, raw bytes of each declared
channel descriptor, the length-prefixed optional session-info blob
(length 0 standing for `None`), then the length-prefixed raw buffer.
Writes into a `Vec` cannot fail, so the result is always `some`. -/
def FrameData.serialize (fd : FrameData) : Option (List Nat) :=
  some (serializeHeader fd.header ++ (fd.varHeaders.map serializeVarHeader).flatten
    ++ (match fd.sessionInfo with
        | some info => u64le info.length ++ info
        | none => u64le 0)
    ++ u64le fd.rawData.length ++ fd.rawData)

/-- Iteration count of `for _ in 0..header.num_vars`: the `i32` range is
empty when `num_vars` is negative (bit pattern at or above `2 ^ 31`). -/
def numVarsLoopCount (numVars : Nat) : Nat :=
  if numVars < 2 ^ 31 then numVars else 0

/-- Read `n` channel descriptors in sequence. -/
def readVarHeaders : Nat → List Nat → Option (List VarHeader × List Nat)
  | 0, bs => some ([], bs)
  | n + 1, bs => do
    let (vh, r1) ← readVarHeader bs
    let (vhs, r2) ← readVarHeaders n r1
    some (vh :: vhs, r2)

/-- `FrameData::deserialize`: header, `num_vars` channel descriptors, a
length-prefixed session-info blob where length 0 yields `None` and any
other length is read and passed through the lossy UTF-8 conversion, then
the length-prefixed raw buffer.  Trailing bytes are ignored. -/
def FrameData.deserialize (bytes : List Nat) : Option FrameData := do
  let (header, r1) ← readHeader bytes
  let (varHeaders, r2) ← readVarHeaders (numVarsLoopCount header.numVars) r1
  let (silen, r3) ← readU64le r2
  let (sessionInfo, r4) ←
    (if silen > 0 then
      match readBytes silen r3 with
      | none => none
      | some (sb, r) => some ((some (fromUtf8Lossy sb) : Option (List Nat)), r)
    else some ((none : Option (List Nat)), r3))
  let (rdlen, r5) ← readU64le r4
  let (rawData, _r6) ← readBytes rdlen r5
  some ⟨header, varHeaders, sessionInfo, rawData⟩

theorem readVarHeaders_flatten {l : List VarHeader} (hl : ∀ vh ∈ l, vh.Wf)
    (rest : List Nat) :
    readVarHeaders l.length ((l.map serializeVarHeader).flatten ++ rest) =
      some (l, rest) := by
  induction l with
  | nil => simp [readVarHeaders]
  | cons vh vhs ih =>
    have h1 := readVarHeader_serializeVarHeader (hl vh (by simp))
      ((vhs.map serializeVarHeader).flatten ++ rest)
    simp [readVarHeaders, List.append_assoc, h1,
      ih (fun x hx => hl x (by simp [hx]))]

theorem Header.Wf.numVars_lt {h : Header} (hw : h.Wf) : h.numVars < 2 ^ 32 :=
  hw.2.2.2.2.2.2.1

end IRacing

/-- Witness for C9: a session of 21 empty polls reports
`SimDisconnected` with nothing written, and a successful poll after 20
empty ones restarts the count. -/
theorem C9_no_data_disconnect_witness :
    Dump.record storedCompress (List.replicate 21 none ++ []) 0 [] =
        (.simDisconnected, []) ∧
      Dump.record storedCompress (some [1] :: []) 20 [] =
        Dump.record storedCompress [] 0 (Saver.save storedCompress [] [1]) :=
  ⟨(C9_no_data_disconnect storedCompress).1 [] [],
    (C9_no_data_disconnect storedCompress).2 [1] [] 20 []⟩

/-- C8: for a header with `1 ≤ num_buf ≤ 4` buffers declared,
`latest_buf_index` returns the index of the first occurrence of the
maximum signed tick count among the first `num_buf` descriptors: the
result is in range, no descriptor beats it, and every earlier descriptor
is strictly below it. -/
theorem C8_latest_buf_index_first_max (h : IRacing.Header)
    (hlen : h.varBuf.length = 4) (hn1 : 1 ≤ h.numBuf) (hn4 : h.numBuf ≤ 4) :
    h.latest_buf_index < h.numBuf ∧
      (∀ i, i < h.numBuf → h.tickVal i ≤ h.tickVal h.latest_buf_index) ∧
      (∀ i, i < h.latest_buf_index → h.tickVal i < h.tickVal h.latest_buf_index) := by
  obtain ⟨ver, status, tickRate, siu, sil, sio, numVars, vho, numBuf, bufLen,
    p1a, p1b, varBuf⟩ := h
  rcases varBuf with _ | ⟨b0, _ | ⟨b1, _ | ⟨b2, _ | ⟨b3, _ | ⟨b4, t⟩⟩⟩⟩⟩ <;>
    simp only [List.length] at hlen <;> try omega
  simp only at hn1 hn4 ⊢
  interval_cases numBuf
  all_goals simp only [IRacing.Header.latest_buf_index, IRacing.Header.tickVal, i32AsUsize]
  all_goals norm_num [List.range']
  all_goals try split_ifs
  all_goals try refine ⟨by norm_num, ?_, ?_⟩
  all_goals try (intro i hi; interval_cases i <;> simp_all [List.getD] <;> try omega)

/-- Witness for C8 at the spec's example: tick counts 100, 150, 120 with
`num_buf = 3` select index 1 (checked directly), and the theorem's
first-occurrence-of-maximum characterisation holds there. -/
theorem C8_latest_buf_index_first_max_witness :
    (IRacing.Header.mk 0 0 0 0 0 0 0 0 3 0 0 0
        [⟨100, 0, 0, 0⟩, ⟨150, 0, 0, 0⟩, ⟨120, 0, 0, 0⟩, ⟨0, 0, 0, 0⟩]).latest_buf_index = 1 ∧
      ((IRacing.Header.mk 0 0 0 0 0 0 0 0 3 0 0 0
        [⟨100, 0, 0, 0⟩, ⟨150, 0, 0, 0⟩, ⟨120, 0, 0, 0⟩, ⟨0, 0, 0, 0⟩]).latest_buf_index < 3 ∧
        (∀ i, i < (IRacing.Header.mk 0 0 0 0 0 0 0 0 3 0 0 0
          [⟨100, 0, 0, 0⟩, ⟨150, 0, 0, 0⟩, ⟨120, 0, 0, 0⟩, ⟨0, 0, 0, 0⟩]).numBuf →
          (IRacing.Header.mk 0 0 0 0 0 0 0 0 3 0 0 0
            [⟨100, 0, 0, 0⟩, ⟨150, 0, 0, 0⟩, ⟨120, 0, 0, 0⟩, ⟨0, 0, 0, 0⟩]).tickVal i ≤
            (IRacing.Header.mk 0 0 0 0 0 0 0 0 3 0 0 0
              [⟨100, 0, 0, 0⟩, ⟨150, 0, 0, 0⟩, ⟨120, 0, 0, 0⟩, ⟨0, 0, 0, 0⟩]).tickVal
              (IRacing.Header.mk 0 0 0 0 0 0 0 0 3 0 0 0
                [⟨100, 0, 0, 0⟩, ⟨150, 0, 0, 0⟩, ⟨120, 0, 0, 0⟩, ⟨0, 0, 0, 0⟩]).latest_buf_index) ∧
        (∀ i, i < (IRacing.Header.mk 0 0 0 0 0 0 0 0 3 0 0 0
          [⟨100, 0, 0, 0⟩, ⟨150, 0, 0, 0⟩, ⟨120, 0, 0, 0⟩, ⟨0, 0, 0, 0⟩]).latest_buf_index →
          (IRacing.Header.mk 0 0 0 0 0 0 0 0 3 0 0 0
            [⟨100, 0, 0, 0⟩, ⟨150, 0, 0, 0⟩, ⟨120, 0, 0, 0⟩, ⟨0, 0, 0, 0⟩]).tickVal i <
            (IRacing.Header.mk 0 0 0 0 0 0 0 0 3 0 0 0
              [⟨100, 0, 0, 0⟩, ⟨150, 0, 0, 0⟩, ⟨120, 0, 0, 0⟩, ⟨0, 0, 0, 0⟩]).tickVal
              (IRacing.Header.mk 0 0 0 0 0 0 0 0 3 0 0 0
                [⟨100, 0, 0, 0⟩, ⟨150, 0, 0, 0⟩, ⟨120, 0, 0, 0⟩, ⟨0, 0, 0, 0⟩]).latest_buf_index)) :=
  ⟨by decide,
    C8_latest_buf_index_first_max _ (by decide) (by decide) (by decide)⟩

namespace IRacing

theorem C2_serialize_roundtrip (fd : FrameData) (hwf : fd.Wf)
    (hnum : i32Val fd.header.numVars = (fd.varHeaders.length : Int))
    (hsi : fd.sessionInfo ≠ some []) :
    fd.serialize.bind FrameData.deserialize = some fd := by
  obtain ⟨header, varHeaders, sessionInfo, rawData⟩ := fd
  obtain ⟨hh, hvhs, hsess, hrdlen, _hrdbytes⟩ := hwf
  simp only at hh hvhs hsess hrdlen hnum hsi ⊢
  have hnv32 : header.numVars < 2 ^ 32 := hh.numVars_lt
  have hnv : numVarsLoopCount header.numVars = varHeaders.length := by
    unfold i32Val at hnum
    unfold numVarsLoopCount
    split at hnum <;> rename_i hcase
    · rw [if_pos hcase]; omega
    · omega
  rcases sessionInfo with _ | info
  · have hhead := readHeader_serializeHeader hh
      ((varHeaders.map serializeVarHeader).flatten
        ++ (u64le 0 ++ (u64le rawData.length ++ rawData)))
    have hvh := readVarHeaders_flatten hvhs
      (u64le 0 ++ (u64le rawData.length ++ rawData))
    have hrd : readBytes rawData.length (rawData ++ []) = some (rawData, []) :=
      readBytes_append rawData []
    simp [FrameData.serialize, FrameData.deserialize, List.append_assoc,
      hhead, hnv, hvh, readU64le_u64le_of_lt (by norm_num : (0 : Nat) < 2 ^ 64),
      readU64le_u64le_of_lt hrdlen, readBytes_all]
  · obtain ⟨hslen, _hsbytes⟩ := hsess
    have hpos : 0 < info.length := by
      rcases info with _ | ⟨x, xs⟩
      · exact absurd rfl hsi
      · simp
    have hhead := readHeader_serializeHeader hh
      ((varHeaders.map serializeVarHeader).flatten
        ++ (u64le info.length ++ (info ++ (u64le rawData.length ++ rawData))))
    have hvh := readVarHeaders_flatten hvhs
      (u64le info.length ++ (info ++ (u64le rawData.length ++ rawData)))
    have hinfo : readBytes info.length (info ++ (u64le rawData.length ++ rawData)) =
        some (info, u64le rawData.length ++ rawData) :=
      readBytes_append info (u64le rawData.length ++ rawData)
    simp [FrameData.serialize, FrameData.deserialize, List.append_assoc,
      hhead, hnv, hvh, readU64le_u64le_of_lt hslen, hpos, hinfo, fromUtf8Lossy,
      readU64le_u64le_of_lt hrdlen, readBytes_all]

/-- All-zero header used by the C2 counterexample. -/
def header0 : Header :=
  ⟨0, 0, 0, 0, 0, 0, 0, 0, 0, 0, 0, 0,
    [⟨0, 0, 0, 0⟩, ⟨0, 0, 0, 0⟩, ⟨0, 0, 0, 0⟩, ⟨0, 0, 0, 0⟩]⟩

set_option maxRecDepth 10000 in
/-- Counterexample to C2 as stated: the snapshot with
`session_info = Some("")` (and `num_vars = 0` matching its empty
descriptor list) serialises the empty blob with length prefix 0, which
`deserialize` reads back as `None`, so the round trip does not return
the snapshot. -/
theorem C2_counterexample :
    (FrameData.serialize ⟨header0, [], some [], []⟩).bind FrameData.deserialize =
        some ⟨header0, [], none, []⟩ ∧
      some (⟨header0, [], none, []⟩ : FrameData) ≠
        some (⟨header0, [], some [], []⟩ : FrameData) := by
  constructor
  · rfl
  · decide

/-- Channel descriptor used by the C2 witness. -/
def vh1 : VarHeader :=
  ⟨1, 10, 5, 1, [0, 0, 0], List.replicate 32 65, List.replicate 64 66,
    List.replicate 32 67⟩

/-- Snapshot used by the C2 witness: one declared channel, a non-empty
session-info blob and a small raw buffer. -/
def fd1 : FrameData :=
  ⟨⟨2, 1, 60, 5, 100, 1000, 1, 144, 3, 512, 0, 0,
      [⟨100, 2000, 0, 0⟩, ⟨0, 0, 0, 0⟩, ⟨0, 0, 0, 0⟩, ⟨0, 0, 0, 0⟩]⟩,
    [vh1], some [83, 73], [1, 2, 3]⟩

set_option maxRecDepth 10000 in
/-- Witness for C2 at `fd1`. -/
theorem C2_serialize_roundtrip_witness :
    fd1.Wf ∧ i32Val fd1.header.numVars = (fd1.varHeaders.length : Int) ∧
      fd1.sessionInfo ≠ some [] ∧
      fd1.serialize.bind FrameData.deserialize = some fd1 :=
  ⟨by decide, by decide, by decide,
    C2_serialize_roundtrip fd1 (by decide) (by decide) (by decide)⟩

end IRacing
/-! Fixed-page telemetry layout, from `src/sims/assettocorsa/data.rs`.
The three `#[repr(C)]` pages contain `i32`/`u16` scalars followed by
`u8` arrays, so they have no interior padding; `serialize` writes them
back-to-back at offsets 0, 2048 and 3072 into a 5120-byte buffer, fully
overwriting it, which the concatenation below reproduces exactly. -/

namespace AssettoCorsa

/-- Little-endian bytes of a 16-bit value (a `u16` array element). -/
def u16le (n : Nat) : List Nat := [n % 256, n / 256 % 256]

/-- Little-endian 16-bit read. -/
def readU16le (bs : List Nat) : Option (Nat × List Nat) :=
  match readBytes 2 bs with
  | none => none
  | some (b, rest) => some (b.getD 0 0 + 256 * b.getD 1 0, rest)

/-- Read `n` consecutive `u16` values. -/
def readU16s : Nat → List Nat → Option (List Nat × List Nat)
  | 0, bs => some ([], bs)
  | n + 1, bs => do
    let (v, r1) ← readU16le bs
    let (vs, r2) ← readU16s n r1
    some (v :: vs, r2)

/-- `GraphicsPage`: `packet_id`, `status` and 2040 content bytes
(2048 bytes total, padded headroom included in `content`). -/
structure GraphicsPage where
  packetId : Nat
  status : Nat
  content : List Nat
deriving DecidableEq, Repr

/-- Rust type invariant of `GraphicsPage`. -/
def GraphicsPage.Wf (g : GraphicsPage) : Prop :=
  g.packetId < 2 ^ 32 ∧ g.status < 2 ^ 32 ∧
    g.content.length = 2040 ∧ ∀ x ∈ g.content, x < 256

instance (g : GraphicsPage) : Decidable g.Wf := by
  unfold GraphicsPage.Wf; infer_instance

/-- `PhysicsPage`: 1024 content bytes. -/
structure PhysicsPage where
  content : List Nat
deriving DecidableEq, Repr

/-- Rust type invariant of `PhysicsPage`. -/
def PhysicsPage.Wf (p : PhysicsPage) : Prop :=
  p.content.length = 1024 ∧ ∀ x ∈ p.content, x < 256

instance (p : PhysicsPage) : Decidable p.Wf := by
  unfold PhysicsPage.Wf; infer_instance

/-- `StaticPage`: two 15-element `u16` version arrays and 1988 content
bytes (2048 bytes total). -/
structure StaticPage where
  smVersion : List Nat
  acVersion : List Nat
  content : List Nat
deriving DecidableEq, Repr

/-- Rust type invariant of `StaticPage`. -/
def StaticPage.Wf (s : StaticPage) : Prop :=
  s.smVersion.length = 15 ∧ (∀ x ∈ s.smVersion, x < 2 ^ 16) ∧
    s.acVersion.length = 15 ∧ (∀ x ∈ s.acVersion, x < 2 ^ 16) ∧
    s.content.length = 1988 ∧ ∀ x ∈ s.content, x < 256

instance (s : StaticPage) : Decidable s.Wf := by
  unfold StaticPage.Wf; infer_instance

/-- GRAPHICS_PADDED_SIZE. -/
def GRAPHICS_PADDED_SIZE : Nat := 2048

/-- PHYSICS_PADDED_SIZE. -/
def PHYSICS_PADDED_SIZE : Nat := 1024

/-- STATIC_PADDED_SIZE. -/
def STATIC_PADDED_SIZE : Nat := 2048

/-- FRAME_SIZE: the three padded pages back-to-back. -/
def FRAME_SIZE : Nat := GRAPHICS_PADDED_SIZE + PHYSICS_PADDED_SIZE + STATIC_PADDED_SIZE

/-- Raw bytes of a `GraphicsPage` (2048). -/
def serializeGraphics (g : GraphicsPage) : List Nat :=
  u32le g.packetId ++ u32le g.status ++ g.content

/-- Raw bytes of a `PhysicsPage` (1024). -/
def serializePhysics (p : PhysicsPage) : List Nat :=
  p.content

/-- Raw bytes of a `StaticPage` (2048). -/
def serializeStatics (s : StaticPage) : List Nat :=
  (s.smVersion.map u16le).flatten ++ (s.acVersion.map u16le).flatten ++ s.content

/-- One captured snapshot: the three pages. -/
structure FrameData where
  graphics : GraphicsPage
  physics : PhysicsPage
  statics : StaticPage
deriving DecidableEq, Repr

/-- Rust type invariant of an AC `FrameData` value. -/
def FrameData.Wf (fd : FrameData) : Prop :=
  fd.graphics.Wf ∧ fd.physics.Wf ∧ fd.statics.Wf

instance (fd : FrameData) : Decidable fd.Wf := by
  unfold FrameData.Wf; infer_instance

/-- `FrameData::serialize`: the graphics page at offset 0, the physics
page at `GRAPHICS_PADDED_SIZE`, the static page after both, filling the
5120-byte buffer exactly. -/
def FrameData.serialize (fd : FrameData) : List Nat :=
  serializeGraphics fd.graphics ++ serializePhysics fd.physics
    ++ serializeStatics fd.statics

/-- Read a `GraphicsPage` back from raw bytes. -/
def readGraphics (bs : List Nat) : Option (GraphicsPage × List Nat) := do
  let (pid, r1) ← readU32le bs
  let (status, r2) ← readU32le r1
  let (content, r3) ← readBytes 2040 r2
  some (⟨pid, status, content⟩, r3)

/-- Read a `PhysicsPage` back from raw bytes. -/
def readPhysics (bs : List Nat) : Option (PhysicsPage × List Nat) := do
  let (content, r1) ← readBytes 1024 bs
  some (⟨content⟩, r1)

/-- Read a `StaticPage` back from raw bytes. -/
def readStatics (bs : List Nat) : Option (StaticPage × List Nat) := do
  let (sm, r1) ← readU16s 15 bs
  let (ac, r2) ← readU16s 15 r1
  let (content, r3) ← readBytes 1988 r2
  some (⟨sm, ac, content⟩, r3)

/-- `FrameData::deserialize`: reject an input shorter than `FRAME_SIZE`,
then copy each page back from its fixed offset; trailing bytes are
ignored. -/
def FrameData.deserialize (bytes : List Nat) : Option FrameData := do
  if bytes.length < FRAME_SIZE then none
  else
    let (graphics, r1) ← readGraphics bytes
    let (physics, r2) ← readPhysics r1
    let (statics, _r3) ← readStatics r2
    some ⟨graphics, physics, statics⟩

theorem readU16le_u16le_of_lt {n : Nat} (hn : n < 2 ^ 16) (rest : List Nat) :
    readU16le (u16le n ++ rest) = some (n, rest) := by
  have h : readBytes 2 (u16le n ++ rest) = some (u16le n, rest) :=
    readBytes_of_length_eq (by simp [u16le])
  rw [readU16le, h]
  simp only [u16le, List.getD_cons_zero, List.getD_cons_succ,
    Option.some.injEq, Prod.mk.injEq, and_true]
  omega

theorem readU16s_flatten {l : List Nat} (hl : ∀ x ∈ l, x < 2 ^ 16)
    (rest : List Nat) :
    readU16s l.length ((l.map u16le).flatten ++ rest) = some (l, rest) := by
  induction l with
  | nil => simp [readU16s]
  | cons v vs ih =>
    have h1 := readU16le_u16le_of_lt (hl v (by simp))
      ((vs.map u16le).flatten ++ rest)
    simp [readU16s, List.append_assoc, h1,
      ih (fun x hx => hl x (by simp [hx]))]

theorem readGraphics_serializeGraphics {g : GraphicsPage} (hg : g.Wf)
    (rest : List Nat) :
    readGraphics (serializeGraphics g ++ rest) = some (g, rest) := by
  obtain ⟨pid, status, content⟩ := g
  obtain ⟨h1, h2, h3, _h4⟩ := hg
  simp only at h1 h2 h3
  simp [readGraphics, serializeGraphics, List.append_assoc,
    readU32le_u32le_of_lt h1, readU32le_u32le_of_lt h2,
    readBytes_of_length_eq h3]

theorem readPhysics_serializePhysics {p : PhysicsPage} (hp : p.Wf)
    (rest : List Nat) :
    readPhysics (serializePhysics p ++ rest) = some (p, rest) := by
  obtain ⟨content⟩ := p
  obtain ⟨h1, _h2⟩ := hp
  simp only at h1
  simp [readPhysics, serializePhysics, readBytes_of_length_eq h1]

theorem readStatics_serializeStatics {s : StaticPage} (hs : s.Wf)
    (rest : List Nat) :
    readStatics (serializeStatics s ++ rest) = some (s, rest) := by
  obtain ⟨sm, ac, content⟩ := s
  obtain ⟨h1, h2, h3, h4, h5, _h6⟩ := hs
  simp only at h1 h2 h3 h4 h5
  have hsm : readU16s 15 ((sm.map u16le).flatten
      ++ ((ac.map u16le).flatten ++ (content ++ rest))) =
      some (sm, (ac.map u16le).flatten ++ (content ++ rest)) := by
    rw [← h1]; exact readU16s_flatten h2 _
  have hac : readU16s 15 ((ac.map u16le).flatten ++ (content ++ rest)) =
      some (ac, content ++ rest) := by
    rw [← h3]; exact readU16s_flatten h4 _
  simp [readStatics, serializeStatics, List.append_assoc, hsm, hac,
    readBytes_of_length_eq h5]

theorem serializeGraphics_length {g : GraphicsPage} (hg : g.Wf) :
    (serializeGraphics g).length = GRAPHICS_PADDED_SIZE := by
  simp [serializeGraphics, u32le, hg.2.2.1, GRAPHICS_PADDED_SIZE]

theorem serializePhysics_length {p : PhysicsPage} (hp : p.Wf) :
    (serializePhysics p).length = PHYSICS_PADDED_SIZE := by
  simp [serializePhysics, hp.1, PHYSICS_PADDED_SIZE]

theorem flatten_map_u16le_length (l : List Nat) :
    ((l.map u16le).flatten).length = 2 * l.length := by
  induction l with
  | nil => simp
  | cons x xs ih => simp [u16le, ih]; omega

theorem serializeStatics_length {s : StaticPage} (hs : s.Wf) :
    (serializeStatics s).length = STATIC_PADDED_SIZE := by
  have h1 := flatten_map_u16le_length s.smVersion
  have h2 := flatten_map_u16le_length s.acVersion
  rw [hs.1] at h1
  rw [hs.2.2.1] at h2
  simp [serializeStatics, h1, h2, hs.2.2.2.2.1, STATIC_PADDED_SIZE]

/-- C3: for every well-formed snapshot (arbitrary contents of all three
pages, padding regions included), deserialising the serialised bytes
succeeds and returns the snapshot unchanged, field for field. -/
theorem C3_serialize_roundtrip (fd : FrameData) (hwf : fd.Wf) :
    FrameData.deserialize fd.serialize = some fd := by
  obtain ⟨g, p, s⟩ := fd
  obtain ⟨hg, hp, hs⟩ := hwf
  simp only at hg hp hs
  have hgr := readGraphics_serializeGraphics hg
    (serializePhysics p ++ serializeStatics s)
  have hph := readPhysics_serializePhysics hp (serializeStatics s)
  have hst : readStatics (serializeStatics s ++ []) = some (s, []) :=
    readStatics_serializeStatics hs []
  rw [List.append_nil] at hst
  simp [FrameData.deserialize, FrameData.serialize, List.append_assoc,
    serializeGraphics_length hg, serializePhysics_length hp,
    serializeStatics_length hs, GRAPHICS_PADDED_SIZE, PHYSICS_PADDED_SIZE,
    STATIC_PADDED_SIZE, FRAME_SIZE, hgr, hph, hst]

/-- All-zero default frame (`FrameData::default()` zeroes every page). -/
def acDefault : FrameData :=
  ⟨⟨0, 0, List.replicate 2040 0⟩, ⟨List.replicate 1024 0⟩,
    ⟨List.replicate 15 0, List.replicate 15 0, List.replicate 1988 0⟩⟩

theorem acDefault_wf : acDefault.Wf := by
  have hb : ∀ n : Nat, ∀ x ∈ List.replicate n 0, x < 256 := by
    intro n x hx; rw [List.eq_of_mem_replicate hx]; norm_num
  have hb16 : ∀ n : Nat, ∀ x ∈ List.replicate n 0, x < 2 ^ 16 := by
    intro n x hx; rw [List.eq_of_mem_replicate hx]; norm_num
  exact ⟨⟨by decide, by decide, List.length_replicate _ _, hb _⟩,
    ⟨List.length_replicate _ _, hb _⟩,
    List.length_replicate _ _, hb16 _, List.length_replicate _ _, hb16 _,
    List.length_replicate _ _, hb _⟩

/-- Witness for C3 at the all-zero default frame. -/
theorem C3_serialize_roundtrip_witness :
    acDefault.Wf ∧ FrameData.deserialize acDefault.serialize = some acDefault :=
  ⟨acDefault_wf, C3_serialize_roundtrip acDefault acDefault_wf⟩

end AssettoCorsa
end Ksana
